import Mathlib

/-!
Shallow embedding of the NoiseBox media-player control plane, together with
proofs checking the natural-language specification against the code.

The embedding follows the Python source:
  - `oracles.py`: the oracle scheduling engine (`Oracle`, `PlaylistOracle`,
    `ChainOracle`, `SwitchOracle`, `InterruptOracle`, `RepeatingOracle`);
  - `media_library.py`: `Song` and `MediaLibrary`;
  - `controller.py`: `Controller.queue_repeat`;
  - `commandserver/server_types/v1_command_types.py`: the message schema
    (`Message`, `ErrorEvent.for_prod`, command/event payloads);
  - `commandserver/websocket_muxer.py`: the per-frame behavior of
    `WebsocketMuxer.handle_session`.

Mutation is embedded by explicit state passing: every method that mutates an
object returns the updated value alongside its result.  A raised Python
exception is embedded as the `Except.error` case.
-/

set_option autoImplicit false

namespace NoiseBox

/-- Python runtime exceptions that the embedded code can raise. -/
inductive PyError where
  /-- Python `ZeroDivisionError`, raised by `%` with a zero right operand. -/
  | zeroDivision : PyError
  /-- Python `AttributeError`, raised by an attribute access that does not resolve. -/
  | attributeError : PyError
  /-- Python `media_library.NotFoundException`. -/
  | notFound : PyError
  /-- Python `media_library.AlreadyExistsException`. -/
  | alreadyExists : PyError
  /-- Python `media_library.IllegalArgument`. -/
  | illegalArgument : PyError
  deriving DecidableEq, Repr

/--
The oracle scheduling tree of `oracles.py`, one constructor per class.
Each constructor carries exactly the instance fields of the Python class, in
declaration order.  `null` is a bare `Oracle()` instance (the spec's "Null"
variant): both of its methods are `pass`, so they return `None`.
-/
inductive Oracle where
  /-- A bare `Oracle()`: `next_song` and `current_song` both return `None`. -/
  | null : Oracle
  /-- Python `PlaylistOracle`: fields `__playlist`, `__pointer`. -/
  | playlist (songs : List String) (pointer : Nat) : Oracle
  /-- Python `RepeatingOracle`: fields `__playlist` (may be `None`), `times`
      (post-constructor value, may be `None`), `__pointer`. -/
  | repeating (playlist : Option (List String)) (times : Option Int) (pointer : Nat) : Oracle
  /-- Python `ChainOracle`: memoization fields of `MemoizingOracle`
      (`has_memoized_current_song`, `memoized_current_song`) then
      `__oracles`, `__pointer`, `__has_drawn_from_oracle`. -/
  | chain (hasMemoized : Bool) (memoized : Option String)
      (oracles : List Oracle) (pointer : Nat) (hasDrawn : Bool) : Oracle
  /-- Python `SwitchOracle`: memoization fields, then `__oracle`,
      `__has_gathered_from_oracle`, `__ignore_first_song`. -/
  | switch (hasMemoized : Bool) (memoized : Option String)
      (oracle : Option Oracle) (hasGathered : Bool) (ignoreFirst : Bool) : Oracle
  /-- Python `InterruptOracle`: memoization fields, then `__default_oracle`,
      `_grabbed_first_song`, `__interrupt_oracle`. -/
  | interrupt (hasMemoized : Bool) (memoized : Option String)
      (defaultOracle : Option Oracle) (grabbedFirst : Bool)
      (interruptOracle : Option Oracle) : Oracle

mutual

/-- The nesting depth of an oracle tree.  Used as the termination measure of
the method embeddings: no oracle method ever increases it. -/
def Oracle.height : Oracle → Nat
  | .null => 0
  | .playlist _ _ => 0
  | .repeating _ _ _ => 0
  | .chain _ _ os _ _ => 1 + Oracle.heightList os
  | .switch _ _ o _ _ => 1 + Oracle.heightOpt o
  | .interrupt _ _ d _ i => 1 + max (Oracle.heightOpt d) (Oracle.heightOpt i)

def Oracle.heightList : List Oracle → Nat
  | [] => 0
  | o :: rest => max o.height (Oracle.heightList rest)

def Oracle.heightOpt : Option Oracle → Nat
  | none => 0
  | some o => o.height

end

theorem heightList_cons (o : Oracle) (l : List Oracle) :
    Oracle.heightList (o :: l) = max o.height (Oracle.heightList l) := by
  simp [Oracle.heightList]

theorem heightList_append (a b : List Oracle) :
    Oracle.heightList (a ++ b) = max (Oracle.heightList a) (Oracle.heightList b) := by
  induction a with
  | nil => simp [Oracle.heightList]
  | cons x xs ih => simp [Oracle.heightList, ih, Nat.max_assoc]

theorem heightList_take_le (n : Nat) (l : List Oracle) :
    Oracle.heightList (l.take n) ≤ Oracle.heightList l := by
  induction l generalizing n with
  | nil => simp [List.take_nil]
  | cons x xs ih =>
    cases n with
    | zero => simp [Oracle.heightList]
    | succ m =>
      simp only [List.take_succ_cons, heightList_cons]
      exact max_le_max (Nat.le_refl _) (ih m)

theorem heightList_drop_le (n : Nat) (l : List Oracle) :
    Oracle.heightList (l.drop n) ≤ Oracle.heightList l := by
  induction l generalizing n with
  | nil => simp [List.drop_nil]
  | cons x xs ih =>
    cases n with
    | zero => exact Nat.le_refl _
    | succ m =>
      simp only [List.drop_succ_cons]
      exact le_trans (ih m) (by simp [heightList_cons])

/-- The sentinel `PlaylistOracle([])` that `ChainOracle._inner_get_first_song`
inserts at the front of its oracle list. -/
def emptyPlaylistOracle : Oracle := .playlist [] 0

theorem heightList_replicate_empty (n : Nat) :
    Oracle.heightList (List.replicate n emptyPlaylistOracle) = 0 := by
  induction n with
  | zero => simp [Oracle.heightList]
  | succ m ih =>
    rw [List.replicate_succ, heightList_cons, ih]
    simp [emptyPlaylistOracle, Oracle.height]

theorem prodLexOfLe {a b c d : Nat} (h : a ≤ c) (h2 : b < d) :
    Prod.Lex (· < ·) (· < ·) (a, b) (c, d) := by
  rcases Nat.lt_or_ge a c with h3 | h3
  · exact Prod.Lex.left _ _ h3
  · have : a = c := Nat.le_antisymm h h3
    subst this
    exact Prod.Lex.right _ h2

theorem prodLexLeft {a b c d : Nat} (h : a < c) :
    Prod.Lex (· < ·) (· < ·) (a, b) (c, d) :=
  Prod.Lex.left _ _ h

mutual

/-- Python `current_song()`, state-passing: returns the value together with the
updated oracle (memoization, and the sentinel insertions of
`ChainOracle._inner_get_first_song`, mutate state).  The result carries a
proof that the tree height does not grow; that fact justifies termination of
the second `current_song()` call that `_inner_get_first_song` makes on an
already-updated child. -/
def currentAux : (o : Oracle) → { r : Option String × Oracle // r.2.height ≤ o.height }
  | .null => ⟨(none, .null), Nat.le_refl _⟩
  | .playlist songs ptr =>
      -- PlaylistOracle.current_song
      ⟨(if ptr ≥ songs.length then none else songs[ptr]?, .playlist songs ptr), Nat.le_refl _⟩
  | .repeating pl times ptr =>
      -- RepeatingOracle.current_song
      ⟨((match pl with
         | none => none
         | some songs =>
             if songs.length = 0 ∨ ptr ≥ songs.length then none else songs[ptr]?),
        .repeating pl times ptr), Nat.le_refl _⟩
  | .chain hasMemo memo os ptr drawn =>
      -- MemoizingOracle.current_song over ChainOracle._inner_get_first_song
      if hasMemo then ⟨(memo, .chain hasMemo memo os ptr drawn), Nat.le_refl _⟩
      else if os.length = 0 then
        -- `self.__oracles.insert(0, PlaylistOracle([]))`, then memoize None
        ⟨(none, .chain true none (emptyPlaylistOracle :: os) ptr drawn), by
          simp only [Oracle.height, heightList_cons, emptyPlaylistOracle]
          simp [Oracle.height]⟩
      else if ptr ≥ os.length then
        ⟨(none, .chain true none os ptr drawn), by simp [Oracle.height]⟩
      else
        match chainCurAux (os.drop ptr) with
        | ⟨(some song, suffix2, adv), h⟩ =>
            -- a frame found a song: the pointer stays on the found child and
            -- `self.__has_drawn_from_oracle = True`
            ⟨(some song, .chain true (some song) (os.take ptr ++ suffix2) (ptr + adv) true), by
              simp only [Oracle.height, heightList_append]
              have h1 := heightList_take_le ptr os
              have h2 : Oracle.heightList suffix2 ≤ Oracle.heightList os :=
                le_trans (by exact h) (heightList_drop_le ptr os)
              omega⟩
        | ⟨(none, suffix2, adv), h⟩ =>
            -- no frame found a song: each of the `(os.drop ptr).length` frames
            -- inserted one sentinel at the front, and the pointer was restored
            ⟨(none, .chain true none
                (List.replicate (os.drop ptr).length emptyPlaylistOracle
                  ++ (os.take ptr ++ suffix2)) ptr drawn), by
              simp only [Oracle.height, heightList_append, heightList_replicate_empty]
              have h1 := heightList_take_le ptr os
              have h2 : Oracle.heightList suffix2 ≤ Oracle.heightList os :=
                le_trans (by exact h) (heightList_drop_le ptr os)
              omega⟩
  | .switch hasMemo memo orac gathered ignoreFirst =>
      -- MemoizingOracle.current_song over SwitchOracle._inner_get_first_song
      if hasMemo then ⟨(memo, .switch hasMemo memo orac gathered ignoreFirst), Nat.le_refl _⟩
      else
        match orac with
        | none =>
            -- `self.__ignore_first_song = False`; no oracle: memoize None
            ⟨(none, .switch true none none gathered false), by simp [Oracle.height]⟩
        | some c =>
            match currentAux c with
            | ⟨(s, c2), h⟩ =>
                -- `self.__has_gathered_from_oracle = True`
                ⟨(s, .switch true s (some c2) true false), by
                  simp only [Oracle.height, Oracle.heightOpt]
                  exact Nat.add_le_add_left h 1⟩
  | .interrupt hasMemo memo dflt grabbed intr =>
      -- MemoizingOracle.current_song over InterruptOracle._inner_get_first_song
      if hasMemo then ⟨(memo, .interrupt hasMemo memo dflt grabbed intr), Nat.le_refl _⟩
      else
        match intr with
        | some ic =>
            match currentAux ic with
            | ⟨(s, ic2), h⟩ =>
                -- `self._grabbed_first_song = True; return interrupt.current_song()`
                ⟨(s, .interrupt true s dflt true (some ic2)), by
                  simp only [Oracle.height, Oracle.heightOpt]
                  exact Nat.add_le_add_left (max_le_max (Nat.le_refl _) h) 1⟩
        | none =>
            match dflt with
            | none => ⟨(none, .interrupt true none none grabbed none), by simp [Oracle.height]⟩
            | some dc =>
                match currentAux dc with
                | ⟨(s, dc2), h⟩ =>
                    ⟨(s, .interrupt true s (some dc2) grabbed none), by
                      simp only [Oracle.height, Oracle.heightOpt]
                      exact Nat.add_le_add_left (max_le_max h (Nat.le_refl _)) 1⟩
termination_by o => (o.height, 0)
decreasing_by
  · apply prodLexLeft
    simp only [Oracle.height]
    rw [Nat.lt_one_add_iff]
    exact heightList_drop_le _ _
  · apply prodLexLeft
    simp only [Oracle.height, Oracle.heightOpt]
    omega
  · apply prodLexLeft
    simp only [Oracle.height, Oracle.heightOpt]
    rw [Nat.lt_one_add_iff]
    exact le_max_right _ _
  · apply prodLexLeft
    simp only [Oracle.height, Oracle.heightOpt]
    rw [Nat.lt_one_add_iff]
    exact le_max_left _ _

/-- The recursive frames of `ChainOracle._inner_get_first_song`, scanning the
suffix `__oracles[__pointer:]`.  Returns `(song, updated suffix, pointer
advance)`.  On the all-`None` path every frame inserts one sentinel
`PlaylistOracle([])` at index 0 of the full list and restores the pointer;
the caller in `currentAux` reassembles the full list accordingly. -/
def chainCurAux : (l : List Oracle) →
    { r : Option String × List Oracle × Nat //
        Oracle.heightList r.2.1 ≤ Oracle.heightList l }
  | [] =>
      -- `if self.__pointer >= len(self.__oracles): return None`
      ⟨(none, [], 0), Nat.le_refl _⟩
  | c :: rest =>
      match currentAux c with
      | ⟨(none, c1), h1⟩ =>
          -- `self.__oracles[self.__pointer].current_song() is None`:
          -- advance the pointer and recurse into the next frame
          (match chainCurAux rest with
          | ⟨(some song, rest2, adv), h2⟩ =>
              -- `if song is not None: return song` (pointer not restored)
              ⟨(some song, c1 :: rest2, adv + 1), by
                simp only [heightList_cons]
                exact max_le_max h1 h2⟩
          | ⟨(none, rest2, adv), h2⟩ =>
              -- `self.__pointer -= 1`, insert a sentinel, return None
              ⟨(none, c1 :: rest2, 0), by
                simp only [heightList_cons]
                exact max_le_max h1 h2⟩)
      | ⟨(some s1, c1), h1⟩ =>
          -- found: `self.__has_drawn_from_oracle = True;`
          -- `return self.__oracles[self.__pointer].current_song()` (a second
          -- call, on the child already updated by the first call)
          match currentAux c1 with
          | ⟨(s2, c2), h3⟩ =>
              ⟨(s2, c2 :: rest, 0), by
                simp only [heightList_cons]
                exact max_le_max (le_trans h3 h1) (Nat.le_refl _)⟩
termination_by l => (Oracle.heightList l, l.length + 1)
decreasing_by
  · apply prodLexOfLe
    · simp only [heightList_cons]; exact le_max_left _ _
    · simp only [List.length_cons]; omega
  · apply prodLexOfLe
    · simp only [heightList_cons]; exact le_max_right _ _
    · simp only [List.length_cons]; omega
  · apply prodLexOfLe
    · simp only [heightList_cons]; exact le_trans (by exact h1) (le_max_left _ _)
    · simp only [List.length_cons]; omega

end

/-- Python `Oracle.current_song()`: the value together with the updated oracle. -/
def Oracle.current_song (o : Oracle) : Option String × Oracle := (currentAux o).1

mutual

/-- Python `next_song()`, state-passing.  `Except.error` embeds a raised Python
exception: `RepeatingOracle.next_song` evaluates `self.__pointer %
len(self.__playlist)`, which raises `ZeroDivisionError` when the playlist is
the empty list. -/
def nextAux : (o : Oracle) → Except PyError (Option String × Oracle)
  | .null => .ok (none, .null)
  | .playlist songs ptr =>
      -- PlaylistOracle.next_song: `self.__pointer += 1` happens first
      .ok (if ptr + 1 ≥ songs.length then none else songs[ptr + 1]?,
           .playlist songs (ptr + 1))
  | .repeating pl times ptr =>
      -- RepeatingOracle.next_song.  The guard `if self.times is None or
      -- (self.__pointer >= len(self.__playlist) and self.times > 0):` is
      -- rendered as a match on `times` (the `or` short-circuits, so `times`
      -- is only compared when it is not None); `self.__pointer % len(...)`
      -- raises ZeroDivisionError on the empty playlist.
      match pl with
      | none => .ok (none, .repeating none times ptr)
      | some songs =>
          let p := ptr + 1
          match times with
          | none =>
              if songs.length = 0 then .error .zeroDivision
              else
                let p2 := p % songs.length
                .ok (if p2 ≥ songs.length then none else songs[p2]?,
                     .repeating (some songs) none p2)
          | some t =>
              if p ≥ songs.length ∧ t > 0 then
                if songs.length = 0 then .error .zeroDivision
                else
                  let p2 := p % songs.length
                  -- `if self.times is not None: self.times -= 1`
                  .ok (if p2 ≥ songs.length then none else songs[p2]?,
                       .repeating (some songs) (some (t - 1)) p2)
              else
                .ok (if p ≥ songs.length then none else songs[p]?,
                     .repeating (some songs) (some t) p)
  | .chain _ _ os ptr drawn =>
      -- MemoizingOracle.next_song over ChainOracle._inner_next_song
      match chainNextAux (os.drop ptr) drawn with
      | .error e => .error e
      | .ok (song, suffix2, adv, drawn2) =>
          .ok (song, .chain true song (os.take ptr ++ suffix2) (ptr + adv) drawn2)
  | .switch _ _ orac gathered ignoreFirst =>
      -- MemoizingOracle.next_song over SwitchOracle._inner_next_song
      match orac with
      | none => .ok (none, .switch true none none gathered ignoreFirst)
      | some c =>
          if gathered || ignoreFirst then
            -- `self.__ignore_first_song = False; return self.__oracle.next_song()`
            match nextAux c with
            | .error e => .error e
            | .ok (s, c2) => .ok (s, .switch true s (some c2) gathered false)
          else
            -- `song = self.__oracle.current_song();
            --  self.__has_gathered_from_oracle = True`
            match currentAux c with
            | ⟨(s, c2), _⟩ => .ok (s, .switch true s (some c2) true ignoreFirst)
  | .interrupt _ _ dflt grabbed intr =>
      -- MemoizingOracle.next_song over InterruptOracle._inner_next_song
      match intr with
      | some ic =>
          if !grabbed then
            -- `next_song = self.__interrupt_oracle.current_song();
            --  self._grabbed_first_song = True`
            match currentAux ic with
            | ⟨(some s, ic2), _⟩ =>
                .ok (some s, .interrupt true (some s) dflt true (some ic2))
            | ⟨(none, _), _⟩ => interruptDefaultNext dflt true
          else
            match nextAux ic with
            | .error e => .error e
            | .ok (some s, ic2) =>
                .ok (some s, .interrupt true (some s) dflt grabbed (some ic2))
            | .ok (none, _) => interruptDefaultNext dflt grabbed
      | none => interruptDefaultNext dflt grabbed
termination_by o => (o.height, 0)
decreasing_by
  · apply prodLexLeft
    simp only [Oracle.height]
    rw [Nat.lt_one_add_iff]
    exact heightList_drop_le _ _
  · apply prodLexLeft
    simp only [Oracle.height, Oracle.heightOpt]
    omega
  · apply prodLexLeft
    simp only [Oracle.height, Oracle.heightOpt]
    rw [Nat.lt_one_add_iff]
    exact le_max_left _ _
  · apply prodLexLeft
    simp only [Oracle.height, Oracle.heightOpt]
    rw [Nat.lt_one_add_iff]
    exact le_max_right _ _
  · apply prodLexLeft
    simp only [Oracle.height, Oracle.heightOpt]
    rw [Nat.lt_one_add_iff]
    exact le_max_left _ _
  · apply prodLexLeft
    simp only [Oracle.height, Oracle.heightOpt]
    rw [Nat.lt_one_add_iff]
    exact le_max_left _ _

/-- The tail of `InterruptOracle._inner_next_song` once the interrupt child
is exhausted or absent: `self.__interrupt_oracle = None`, then the default
oracle's `next_song()` (or `None` without a default); the memoizing wrapper
of `MemoizingOracle.next_song` is applied to the result. -/
def interruptDefaultNext : (dflt : Option Oracle) → (grabbed2 : Bool) →
    Except PyError (Option String × Oracle)
  | none, grabbed2 => .ok (none, .interrupt true none none grabbed2 none)
  | some dc, grabbed2 =>
      match nextAux dc with
      | .error e => .error e
      | .ok (s, dc2) => .ok (s, .interrupt true s (some dc2) grabbed2 none)
termination_by dflt _ => (Oracle.heightOpt dflt, 1)
decreasing_by
  · apply prodLexOfLe
    · simp only [Oracle.heightOpt]
      exact Nat.le_refl _
    · omega

/-- The loop of `ChainOracle._inner_next_song` over the suffix
`__oracles[__pointer:]`.  Returns `(song, updated suffix, pointer advance,
final has_drawn flag)`. -/
def chainNextAux : (l : List Oracle) → (drawn : Bool) →
    Except PyError (Option String × List Oracle × Nat × Bool)
  | [], drawn =>
      -- `current_oracle is None: return None` (has_drawn untouched)
      .ok (none, [], 0, drawn)
  | c :: rest, drawn =>
      match (if drawn then nextAux c else .ok (currentAux c).1) with
      | .error e => .error e
      | .ok (some s, c2) =>
          -- loop exit: `self.__has_drawn_from_oracle = True; return song`
          .ok (some s, c2 :: rest, 0, true)
      | .ok (none, c2) =>
          -- `self.__pointer += 1; self.__has_drawn_from_oracle = False`
          match chainNextAux rest false with
          | .error e => .error e
          | .ok (song, rest2, adv, drawn2) =>
              .ok (song, c2 :: rest2, adv + 1, drawn2)
termination_by l _ => (Oracle.heightList l, l.length + 1)
decreasing_by
  · apply prodLexOfLe
    · simp only [heightList_cons]; exact le_max_left _ _
    · simp only [List.length_cons]; omega
  · apply prodLexOfLe
    · simp only [heightList_cons]; exact le_max_right _ _
    · simp only [List.length_cons]; omega

end

/-- Python `Oracle.next_song()`: either a raised exception, or the value together
with the updated oracle. -/
def Oracle.next_song (o : Oracle) : Except PyError (Option String × Oracle) := nextAux o

/-- Python `PlaylistOracle(songs)`: `None` becomes the empty list, pointer 0. -/
def PlaylistOracle (songs : Option (List String)) : Oracle :=
  .playlist (songs.getD []) 0

/-- Python `RepeatingOracle(playlist, times)`: the constructor stores `times - 1`
(`None` stays `None`); the playlist is stored as passed, `None` included. -/
def RepeatingOracle (playlist : Option (List String)) (times : Option Int) : Oracle :=
  .repeating playlist (times.map (fun t => t - 1)) 0

/-- Python `ChainOracle()`: no children, pointer 0, `has_drawn_from_oracle = True`. -/
def ChainOracle : Oracle := .chain false none [] 0 true

/-- Python `SwitchOracle()`: no child, `has_gathered = True`, `ignore_first = True`. -/
def SwitchOracle : Oracle := .switch false none none true true

/-- Python `InterruptOracle(default_oracle)`. -/
def InterruptOracle (defaultOracle : Option Oracle) : Oracle :=
  .interrupt false none defaultOracle false none

/-- Python `ChainOracle.add(oracle)`: append-only; `None` is ignored.  (On any other
variant there is no such method; the state is returned unchanged.) -/
def chainAdd (o : Oracle) (child : Option Oracle) : Oracle :=
  match o, child with
  | .chain hm m os p d, some c => .chain hm m (os ++ [c]) p d
  | _, _ => o

/-- Python `ChainOracle.clear()`: empties the child list and resets `has_drawn`;
the pointer and the memoized song are untouched. -/
def chainClear (o : Oracle) : Oracle :=
  match o with
  | .chain hm m _ p _ => .chain hm m [] p false
  | _ => o

/-- Python `SwitchOracle.set_oracle(oracle)`: stores the child and resets
`has_gathered`; `ignore_first_song` and the memo are untouched. -/
def switchSetOracle (o : Oracle) (newOracle : Option Oracle) : Oracle :=
  match o with
  | .switch hm m _ _ ignoreFirst => .switch hm m newOracle false ignoreFirst
  | _ => o

/-- Python `InterruptOracle.interrupt(oracle)`: stores the interrupting child and
resets `_grabbed_first_song`. -/
def interruptSet (o : Oracle) (newOracle : Option Oracle) : Oracle :=
  match o with
  | .interrupt hm m dflt _ _ => .interrupt hm m dflt false newOracle
  | _ => o

/-- Python `InterruptOracle.clear_interrupt()`. -/
def interruptClear (o : Oracle) : Oracle :=
  match o with
  | .interrupt hm m dflt g _ => .interrupt hm m dflt g none
  | _ => o

/-- Iterated advancing: `nextIter k o` performs `k + 1` successive
`next_song()` calls and returns the result of the last one; a raised
exception aborts. -/
def nextIter : Nat → Oracle → Except PyError (Option String × Oracle)
  | 0, o => o.next_song
  | k + 1, o =>
      match o.next_song with
      | .error e => .error e
      | .ok (_, o2) => nextIter k o2

/-- Repeated `advance()` until it returns nothing, with explicit fuel:
collects the values of successive `next_song()` calls until one returns
`None` (or the fuel runs out), together with the final state. -/
def collectNexts : Nat → Oracle → Except PyError (List String × Oracle)
  | 0, o => .ok ([], o)
  | fuel + 1, o =>
      match o.next_song with
      | .error e => .error e
      | .ok (none, o2) => .ok ([], o2)
      | .ok (some s, o2) =>
          match collectNexts fuel o2 with
          | .error e => .error e
          | .ok (items, o3) => .ok (s :: items, o3)

/-- The collection procedure of the spec: take `current()` once, then
`advance()` until it returns nothing; the items yielded, in order (a
`None` from `current()` yields no item). -/
def collectOracle (fuel : Nat) (o : Oracle) : Except PyError (List String × Oracle) :=
  match Oracle.current_song o with
  | (c, o1) =>
      match collectNexts fuel o1 with
      | .error e => .error e
      | .ok (items, o2) => .ok (c.toList ++ items, o2)

-- Sanity checks of the embedding against the pinned behaviors of
-- `oracles_test.py`.

/- `PlaylistTest.test_basic_functionality`: collect(PlaylistOracle(["1","2","3"]))
   == ["1","2","3"], then next_song() is None. -/
example :
    (collectOracle 99 (PlaylistOracle (some ["1", "2", "3"]))).map Prod.fst =
      .ok ["1", "2", "3"] := by
  simp [collectOracle, collectNexts, PlaylistOracle, Oracle.current_song, currentAux,
        Oracle.next_song, nextAux, Except.map]

/- `ChainTest.test_none_returning_current_song_sticks`, stepping through the
   literal intermediate states. -/
example : Oracle.current_song ChainOracle =
    (none, .chain true none [emptyPlaylistOracle] 0 true) := by
  simp [ChainOracle, Oracle.current_song, currentAux]

example :
    chainAdd (.chain true none [emptyPlaylistOracle] 0 true)
        (some (PlaylistOracle (some ["1", "2", "3"]))) =
      .chain true none [emptyPlaylistOracle, .playlist ["1", "2", "3"] 0] 0 true := by
  simp [chainAdd, PlaylistOracle]

example :
    (Oracle.current_song
        (.chain true none [emptyPlaylistOracle, .playlist ["1", "2", "3"] 0] 0 true)).1 =
      none ∧
    ((Oracle.next_song
        (.chain true none [emptyPlaylistOracle, .playlist ["1", "2", "3"] 0] 0 true)).map
          (fun r => r.1) = .ok (some "1")) := by
  constructor <;>
    simp [Oracle.current_song, currentAux, Oracle.next_song, nextAux, chainNextAux,
          emptyPlaylistOracle, Except.map]

/- `SwitchOracleTest.test_go_to_second_song_without_memoizing_call_to_current_song`:
   set_oracle then immediate next_song returns the SECOND song. -/
example :
    ((switchSetOracle SwitchOracle (some (PlaylistOracle (some ["1", "2"])))).next_song).map
        (fun r => r.1) = .ok (some "2") := by
  simp [SwitchOracle, PlaylistOracle, switchSetOracle, Oracle.next_song, nextAux, Except.map]

/- `SwitchOracleTest.test_memoize_to_none_and_play_first_with_current_song_before_setting`:
   current_song() before set_oracle makes the next next_song() return the FIRST song. -/
example : Oracle.current_song SwitchOracle = (none, .switch true none none true false) := by
  simp [SwitchOracle, Oracle.current_song, currentAux]

example :
    switchSetOracle (.switch true none none true false)
        (some (PlaylistOracle (some ["1", "2"]))) =
      .switch true none (some (.playlist ["1", "2"] 0)) false false := by
  simp [switchSetOracle, PlaylistOracle]

example :
    (Oracle.current_song (.switch true none (some (.playlist ["1", "2"] 0)) false false)).1 =
      none ∧
    ((Oracle.next_song (.switch true none (some (.playlist ["1", "2"] 0)) false false)).map
        (fun r => r.1) = .ok (some "1")) := by
  constructor <;> simp [Oracle.current_song, currentAux, Oracle.next_song, nextAux, Except.map]

/- `InterruptOracleTest.test_interrupt_before_finish` (prefix): after
   current+next on the default (["1","2","3"]) and then interrupt(["4","5","6"]),
   the next observations are current()="2" (memoized) and next()="4". -/
example :
    Oracle.current_song (InterruptOracle (some (PlaylistOracle (some ["1", "2", "3"])))) =
      (some "1",
        .interrupt true (some "1") (some (.playlist ["1", "2", "3"] 0)) false none) := by
  simp [InterruptOracle, PlaylistOracle, Oracle.current_song, currentAux]

example :
    Oracle.next_song
        (.interrupt true (some "1") (some (.playlist ["1", "2", "3"] 0)) false none) =
      .ok (some "2",
        .interrupt true (some "2") (some (.playlist ["1", "2", "3"] 1)) false none) := by
  simp [Oracle.next_song, nextAux, interruptDefaultNext]

example :
    interruptSet (.interrupt true (some "2") (some (.playlist ["1", "2", "3"] 1)) false none)
        (some (PlaylistOracle (some ["4", "5", "6"]))) =
      .interrupt true (some "2") (some (.playlist ["1", "2", "3"] 1)) false
        (some (.playlist ["4", "5", "6"] 0)) := by
  simp [interruptSet, PlaylistOracle]

example :
    (Oracle.current_song
        (.interrupt true (some "2") (some (.playlist ["1", "2", "3"] 1)) false
          (some (.playlist ["4", "5", "6"] 0)))).1 = some "2" ∧
    ((Oracle.next_song
        (.interrupt true (some "2") (some (.playlist ["1", "2", "3"] 1)) false
          (some (.playlist ["4", "5", "6"] 0)))).map (fun r => r.1) = .ok (some "4")) := by
  constructor <;>
    simp [Oracle.current_song, currentAux, Oracle.next_song, nextAux, Except.map]

/- `RepeatingOracleTest.test_5_repetitions`: RepeatingOracle(["1","2","3","4"], 3)
   collects to songs * 3. -/
example :
    (collectOracle 99 (RepeatingOracle (some ["1", "2", "3", "4"]) (some 3))).map Prod.fst =
      .ok ["1", "2", "3", "4", "1", "2", "3", "4", "1", "2", "3", "4"] := by
  simp [collectOracle, collectNexts, RepeatingOracle, Oracle.current_song, currentAux,
        Oracle.next_song, nextAux, Except.map]

/- `RepeatingOracleTest.test_immediate_next_song_returns_second_song`. -/
example :
    ((RepeatingOracle (some ["1", "2", "3"]) none).next_song).map (fun r => r.1) =
      .ok (some "2") := by
  simp [RepeatingOracle, Oracle.next_song, nextAux, Except.map]

/-- The plain (subtype-free) value of the `_inner_get_first_song` scan. -/
def chainCur (l : List Oracle) : Option String × List Oracle × Nat := (chainCurAux l).1

theorem chainCur_nil : chainCur [] = (none, [], 0) := by
  simp [chainCur, chainCurAux]

theorem chainCur_cons (c : Oracle) (rest : List Oracle) :
    chainCur (c :: rest) =
      match Oracle.current_song c with
      | (none, c1) =>
          (match chainCur rest with
           | (some song, rest2, adv) => (some song, c1 :: rest2, adv + 1)
           | (none, rest2, _) => (none, c1 :: rest2, 0))
      | (some _, c1) =>
          match Oracle.current_song c1 with
          | (s2, c2) => (s2, c2 :: rest, 0) := by
  rw [chainCur, chainCurAux]
  rcases hc : currentAux c with ⟨⟨s1, c1⟩, hh1⟩
  have hcs : Oracle.current_song c = (s1, c1) := by
    rw [Oracle.current_song, hc]
  cases s1 with
  | none =>
      rcases hr : chainCurAux rest with ⟨⟨s3, rest2, adv⟩, hh3⟩
      have hcr : chainCur rest = (s3, rest2, adv) := by
        rw [chainCur, hr]
      cases s3 <;> simp [hcs, hcr]
  | some s =>
      rcases hc2 : currentAux c1 with ⟨⟨s2, c2⟩, hh2⟩
      have hcs2 : Oracle.current_song c1 = (s2, c2) := by
        rw [Oracle.current_song, hc2]
      simp [hcs, hcs2, hc2]

theorem current_song_null : Oracle.current_song .null = (none, .null) := by
  simp [Oracle.current_song, currentAux]

theorem current_song_playlist (songs : List String) (ptr : Nat) :
    Oracle.current_song (.playlist songs ptr) =
      (if ptr ≥ songs.length then none else songs[ptr]?, .playlist songs ptr) := by
  simp [Oracle.current_song, currentAux]

theorem current_song_repeating (pl : Option (List String)) (t : Option Int) (ptr : Nat) :
    Oracle.current_song (.repeating pl t ptr) =
      ((match pl with
        | none => none
        | some songs =>
            if songs.length = 0 ∨ ptr ≥ songs.length then none else songs[ptr]?),
       .repeating pl t ptr) := by
  cases pl <;> simp [Oracle.current_song, currentAux]

theorem current_song_chain_memo (m : Option String) (os : List Oracle) (p : Nat) (d : Bool) :
    Oracle.current_song (.chain true m os p d) = (m, .chain true m os p d) := by
  simp [Oracle.current_song, currentAux]

theorem current_song_chain_fresh (m : Option String) (os : List Oracle) (p : Nat) (d : Bool) :
    Oracle.current_song (.chain false m os p d) =
      if os.length = 0 then (none, .chain true none (emptyPlaylistOracle :: os) p d)
      else if p ≥ os.length then (none, .chain true none os p d)
      else
        match chainCur (os.drop p) with
        | (some song, suffix2, adv) =>
            (some song, .chain true (some song) (os.take p ++ suffix2) (p + adv) true)
        | (none, suffix2, _) =>
            (none, .chain true none
              (List.replicate (os.drop p).length emptyPlaylistOracle
                ++ (os.take p ++ suffix2)) p d) := by
  rw [Oracle.current_song, currentAux]
  split
  · rename_i h0
    simp at h0
  · split
    · rename_i h0
      simp [h0]
    · rename_i h0
      split
      · rename_i h1
        simp [h0, h1]
      · rename_i h1
        rcases hc : chainCurAux (os.drop p) with ⟨⟨s, l2, adv⟩, hh⟩
        have hcc : chainCur (os.drop p) = (s, l2, adv) := by
          rw [chainCur, hc]
        cases s <;> simp [h0, h1, hcc]

theorem current_song_switch_memo (m : Option String) (orac : Option Oracle)
    (g i : Bool) :
    Oracle.current_song (.switch true m orac g i) = (m, .switch true m orac g i) := by
  cases orac <;> simp [Oracle.current_song, currentAux]

theorem current_song_switch_fresh_none (m : Option String) (g i : Bool) :
    Oracle.current_song (.switch false m none g i) =
      (none, .switch true none none g false) := by
  simp [Oracle.current_song, currentAux]

theorem current_song_switch_fresh_some (m : Option String) (c : Oracle) (g i : Bool) :
    Oracle.current_song (.switch false m (some c) g i) =
      ((Oracle.current_song c).1,
        .switch true (Oracle.current_song c).1 (some (Oracle.current_song c).2) true false) := by
  rw [Oracle.current_song, currentAux]
  rcases hc : currentAux c with ⟨⟨s, c2⟩, hh⟩
  have hcs : Oracle.current_song c = (s, c2) := by rw [Oracle.current_song, hc]
  simp [hcs]

theorem current_song_interrupt_memo (m : Option String) (dflt : Option Oracle)
    (g : Bool) (intr : Option Oracle) :
    Oracle.current_song (.interrupt true m dflt g intr) =
      (m, .interrupt true m dflt g intr) := by
  cases intr <;> cases dflt <;> simp [Oracle.current_song, currentAux]

theorem current_song_interrupt_fresh_intr (m : Option String) (dflt : Option Oracle)
    (g : Bool) (ic : Oracle) :
    Oracle.current_song (.interrupt false m dflt g (some ic)) =
      ((Oracle.current_song ic).1,
        .interrupt true (Oracle.current_song ic).1 dflt true
          (some (Oracle.current_song ic).2)) := by
  rw [Oracle.current_song, currentAux]
  rcases hc : currentAux ic with ⟨⟨s, ic2⟩, hh⟩
  have hcs : Oracle.current_song ic = (s, ic2) := by rw [Oracle.current_song, hc]
  simp [hcs]

theorem current_song_interrupt_fresh_nodflt (m : Option String) (g : Bool) :
    Oracle.current_song (.interrupt false m none g none) =
      (none, .interrupt true none none g none) := by
  simp [Oracle.current_song, currentAux]

theorem current_song_interrupt_fresh_dflt (m : Option String) (g : Bool) (dc : Oracle) :
    Oracle.current_song (.interrupt false m (some dc) g none) =
      ((Oracle.current_song dc).1,
        .interrupt true (Oracle.current_song dc).1 (some (Oracle.current_song dc).2)
          g none) := by
  rw [Oracle.current_song, currentAux]
  rcases hc : currentAux dc with ⟨⟨s, dc2⟩, hh⟩
  have hcs : Oracle.current_song dc = (s, dc2) := by rw [Oracle.current_song, hc]
  simp [hcs]

/-- After any `current_song()` call, a second `current_song()` call returns
the same value (the memoizing classes read the memo; the leaf classes are
pure). -/
theorem current_song_stable (o : Oracle) :
    (Oracle.current_song (Oracle.current_song o).2).1 = (Oracle.current_song o).1 := by
  cases o with
  | null => simp [current_song_null]
  | playlist songs ptr => simp [current_song_playlist]
  | repeating pl t ptr => simp [current_song_repeating]
  | chain hm m os p d =>
      cases hm with
      | true => simp [current_song_chain_memo]
      | false =>
          rw [current_song_chain_fresh]
          split
          · simp [current_song_chain_memo]
          · split
            · simp [current_song_chain_memo]
            · split <;> simp [current_song_chain_memo]
  | switch hm m orac g i =>
      cases hm with
      | true => simp [current_song_switch_memo]
      | false =>
          cases orac with
          | none => simp [current_song_switch_fresh_none, current_song_switch_memo]
          | some c => simp [current_song_switch_fresh_some, current_song_switch_memo]
  | interrupt hm m dflt g intr =>
      cases hm with
      | true => simp [current_song_interrupt_memo]
      | false =>
          cases intr with
          | some ic => simp [current_song_interrupt_fresh_intr, current_song_interrupt_memo]
          | none =>
              cases dflt with
              | none => simp [current_song_interrupt_fresh_nodflt, current_song_interrupt_memo]
              | some dc => simp [current_song_interrupt_fresh_dflt, current_song_interrupt_memo]

/-- Immediately after a `next_song()` call that returned a value (rather than
raising), `current_song()` returns that same value. -/
theorem current_song_after_next (o : Oracle) (v : Option String) (o2 : Oracle)
    (h : Oracle.next_song o = .ok (v, o2)) :
    (Oracle.current_song o2).1 = v := by
  cases o with
  | null =>
      simp only [Oracle.next_song, nextAux] at h
      obtain ⟨h1, h2⟩ := by exact Prod.mk.injEq .. ▸ (Except.ok.inj h)
      subst h1; subst h2
      simp [Oracle.current_song, currentAux]
  | playlist songs ptr =>
      simp only [Oracle.next_song, nextAux] at h
      obtain ⟨h1, h2⟩ := by exact Prod.mk.injEq .. ▸ (Except.ok.inj h)
      subst h1; subst h2
      simp [Oracle.current_song, currentAux]
  | repeating pl t ptr =>
      cases pl with
      | none =>
          simp only [Oracle.next_song, nextAux] at h
          obtain ⟨h1, h2⟩ := by exact Prod.mk.injEq .. ▸ (Except.ok.inj h)
          subst h1; subst h2
          simp [Oracle.current_song, currentAux]
      | some songs =>
          cases t with
          | none =>
              simp only [Oracle.next_song, nextAux] at h
              split at h
              · exact absurd h (by simp)
              · rename_i hl
                obtain ⟨h1, h2⟩ := by exact Prod.mk.injEq .. ▸ (Except.ok.inj h)
                subst h1; subst h2
                simp [current_song_repeating, hl]
          | some tv =>
              simp only [Oracle.next_song, nextAux] at h
              split at h
              · split at h
                · exact absurd h (by simp)
                · rename_i hcond hl
                  obtain ⟨h1, h2⟩ := by exact Prod.mk.injEq .. ▸ (Except.ok.inj h)
                  subst h1; subst h2
                  simp [current_song_repeating, hl]
              · obtain ⟨h1, h2⟩ := by exact Prod.mk.injEq .. ▸ (Except.ok.inj h)
                subst h1; subst h2
                by_cases hl : songs.length = 0
                · simp [current_song_repeating, hl]
                · simp [current_song_repeating, hl]
  | chain hm m os p d =>
      simp only [Oracle.next_song, nextAux] at h
      split at h
      · exact absurd h (by simp)
      · obtain ⟨h1, h2⟩ := by exact Prod.mk.injEq .. ▸ (Except.ok.inj h)
        subst h1; subst h2
        simp [Oracle.current_song, currentAux]
  | switch hm m orac g i =>
      cases orac with
      | none =>
          simp only [Oracle.next_song, nextAux] at h
          obtain ⟨h1, h2⟩ := by exact Prod.mk.injEq .. ▸ (Except.ok.inj h)
          subst h1; subst h2
          simp [Oracle.current_song, currentAux]
      | some c =>
          simp only [Oracle.next_song, nextAux] at h
          split at h
          · split at h
            · exact absurd h (by simp)
            · obtain ⟨h1, h2⟩ := by exact Prod.mk.injEq .. ▸ (Except.ok.inj h)
              subst h1; subst h2
              simp [Oracle.current_song, currentAux]
          · obtain ⟨h1, h2⟩ := by exact Prod.mk.injEq .. ▸ (Except.ok.inj h)
            subst h1; subst h2
            simp [current_song_switch_memo]
  | interrupt hm m dflt g intr =>
      cases intr with
      | some ic =>
          simp only [Oracle.next_song, nextAux] at h
          split at h
          · split at h
            · obtain ⟨h1, h2⟩ := by exact Prod.mk.injEq .. ▸ (Except.ok.inj h)
              subst h1; subst h2
              simp [Oracle.current_song, currentAux]
            · cases dflt with
              | none =>
                  simp only [interruptDefaultNext] at h
                  obtain ⟨h1, h2⟩ := by exact Prod.mk.injEq .. ▸ (Except.ok.inj h)
                  subst h1; subst h2
                  simp [Oracle.current_song, currentAux]
              | some dc =>
                  simp only [interruptDefaultNext] at h
                  split at h
                  · exact absurd h (by simp)
                  · obtain ⟨h1, h2⟩ := by exact Prod.mk.injEq .. ▸ (Except.ok.inj h)
                    subst h1; subst h2
                    simp [Oracle.current_song, currentAux]
          · split at h
            · exact absurd h (by simp)
            · obtain ⟨h1, h2⟩ := by exact Prod.mk.injEq .. ▸ (Except.ok.inj h)
              subst h1; subst h2
              simp [Oracle.current_song, currentAux]
            · cases dflt with
              | none =>
                  simp only [interruptDefaultNext] at h
                  obtain ⟨h1, h2⟩ := by exact Prod.mk.injEq .. ▸ (Except.ok.inj h)
                  subst h1; subst h2
                  simp [Oracle.current_song, currentAux]
              | some dc =>
                  simp only [interruptDefaultNext] at h
                  split at h
                  · exact absurd h (by simp)
                  · obtain ⟨h1, h2⟩ := by exact Prod.mk.injEq .. ▸ (Except.ok.inj h)
                    subst h1; subst h2
                    simp [Oracle.current_song, currentAux]
      | none =>
          simp only [Oracle.next_song, nextAux] at h
          cases dflt with
          | none =>
              simp only [interruptDefaultNext] at h
              obtain ⟨h1, h2⟩ := by exact Prod.mk.injEq .. ▸ (Except.ok.inj h)
              subst h1; subst h2
              simp [Oracle.current_song, currentAux]
          | some dc =>
              simp only [interruptDefaultNext] at h
              split at h
              · exact absurd h (by simp)
              · obtain ⟨h1, h2⟩ := by exact Prod.mk.injEq .. ▸ (Except.ok.inj h)
                subst h1; subst h2
                simp [Oracle.current_song, currentAux]

theorem next_song_playlist (songs : List String) (ptr : Nat) :
    Oracle.next_song (.playlist songs ptr) =
      .ok (if ptr + 1 ≥ songs.length then none else songs[ptr + 1]?,
           .playlist songs (ptr + 1)) := by
  simp [Oracle.next_song, nextAux]

theorem next_song_repeating_finite (seq : List String) (t : Int) (p : Nat) :
    Oracle.next_song (.repeating (some seq) (some t) p) =
      if p + 1 ≥ seq.length ∧ t > 0 then
        (if seq.length = 0 then .error .zeroDivision
         else .ok (if (p + 1) % seq.length ≥ seq.length then none
                   else seq[(p + 1) % seq.length]?,
                   .repeating (some seq) (some (t - 1)) ((p + 1) % seq.length)))
      else .ok (if p + 1 ≥ seq.length then none else seq[p + 1]?,
                .repeating (some seq) (some t) (p + 1)) := by
  simp [Oracle.next_song, nextAux]

/-- Once a `PlaylistOracle` pointer has run past the end, every further
`next_song()` returns `None` and just keeps incrementing the pointer. -/
theorem nextIter_playlist_exhausted (seq : List String) (p : Nat)
    (hp : seq.length ≤ p) (k : Nat) :
    nextIter k (.playlist seq p) = .ok (none, .playlist seq (p + k + 1)) := by
  induction k generalizing p with
  | zero =>
      have h1 : p + 1 ≥ seq.length := by omega
      simp [nextIter, next_song_playlist, h1]
  | succ k ih =>
      have h1 : p + 1 ≥ seq.length := by omega
      rw [nextIter, next_song_playlist]
      simp only [h1, if_pos]
      rw [ih (p + 1) (by omega)]
      have h2 : p + 1 + k + 1 = p + (k + 1) + 1 := by omega
      rw [h2]

/-- Collecting the `next_song()` values of a `PlaylistOracle` from an
in-bounds pointer yields the remaining suffix and parks the pointer at the
length of the playlist. -/
theorem collectNexts_playlist (seq : List String) (p fuel : Nat)
    (hp : p < seq.length) (hf : seq.length - p ≤ fuel) :
    collectNexts fuel (.playlist seq p) =
      .ok (seq.drop (p + 1), .playlist seq seq.length) := by
  induction fuel generalizing p with
  | zero => omega
  | succ fuel ih =>
      rw [collectNexts, next_song_playlist]
      by_cases hend : p + 1 ≥ seq.length
      · have hp1 : p + 1 = seq.length := by omega
        simp [hend, hp1, List.drop_length]
      · have hlt : p + 1 < seq.length := by omega
        simp only [hend, if_neg, if_false, List.getElem?_eq_getElem hlt]
        rw [ih (p + 1) hlt (by omega)]
        rw [List.drop_eq_getElem_cons hlt]

/-- C1: the spec says oracles never fail and signal absence by a nothing
return, in particular for a `Repeating` oracle over the empty sequence.  The
code disagrees: `RepeatingOracle.next_song` evaluates `self.__pointer %
len(self.__playlist)`, and with `playlist = []` (`times` infinite, or finite
and at least 2) that is a division by zero, so `next_song()` raises
`ZeroDivisionError` instead of returning `None`. -/
theorem claim_C1 :
    (RepeatingOracle (some []) none).next_song = .error .zeroDivision ∧
    (RepeatingOracle (some []) (some 2)).next_song = .error .zeroDivision := by
  constructor <;> simp [RepeatingOracle, Oracle.next_song, nextAux]

/-- C3: on a freshly created Chain oracle holding a single `Playlist([a, b])`
child, calling `advance()` before any `current()` was ever observed returns
`b`, the second item of the child, not `a`. -/
theorem claim_C3 (a b : String) :
    (chainAdd ChainOracle (some (PlaylistOracle (some [a, b])))).next_song =
      .ok (some b, .chain true (some b) [.playlist [a, b] 1] 0 true) := by
  simp [ChainOracle, PlaylistOracle, chainAdd, Oracle.next_song, nextAux, chainNextAux]

/-- C4: for every oracle variant and every state, two successive `current()`
calls with no intervening `advance()` return the same value; immediately
after an `advance()` that returned `v`, `current()` returns that same `v`;
and on a fresh leaf oracle the first `current()` returns the first item of
the underlying sequence, or nothing. -/
theorem claim_C4 (o : Oracle) (v : Option String) (o2 : Oracle) :
    (Oracle.current_song (Oracle.current_song o).2).1 = (Oracle.current_song o).1 ∧
    (Oracle.next_song o = .ok (v, o2) → (Oracle.current_song o2).1 = v) ∧
    (∀ seq : List String,
        (Oracle.current_song (PlaylistOracle (some seq))).1 = seq[0]? ∧
        (Oracle.current_song (RepeatingOracle (some seq) none)).1 = seq[0]?) := by
  refine ⟨current_song_stable o, current_song_after_next o v o2, ?_⟩
  intro seq
  cases seq <;>
    simp [PlaylistOracle, RepeatingOracle, current_song_playlist, current_song_repeating]

theorem claim_C4_witness :
    (Oracle.current_song (Oracle.playlist ["x", "y"] 1)).1 = some "y" :=
  (claim_C4 (.playlist ["x", "y"] 0) (some "y") (.playlist ["x", "y"] 1)).2.1
    (by simp [Oracle.next_song, nextAux])

/-- C5: collecting from `Playlist(seq)` (one `current()`, then `advance()`
until nothing) yields exactly the items of `seq` in order, and afterwards
every `advance()` returns nothing forever. -/
theorem claim_C5 (seq : List String) (fuel : Nat) (hf : seq.length ≤ fuel) :
    (collectOracle fuel (PlaylistOracle (some seq))).map Prod.fst = .ok seq ∧
    (∀ items o2, collectOracle fuel (PlaylistOracle (some seq)) = .ok (items, o2) →
      ∀ k, (nextIter k o2).map Prod.fst = .ok none) := by
  cases seq with
  | nil =>
      cases fuel with
      | zero =>
          constructor
          · simp [collectOracle, PlaylistOracle, current_song_playlist, collectNexts,
                  Except.map]
          · intro items o2 h k
            simp [collectOracle, PlaylistOracle, current_song_playlist, collectNexts] at h
            rw [h.2.symm] at *
            rw [nextIter_playlist_exhausted [] 0 (by simp) k]
            simp [Except.map]
      | succ fuel =>
          constructor
          · simp [collectOracle, PlaylistOracle, current_song_playlist, collectNexts,
                  next_song_playlist, Except.map]
          · intro items o2 h k
            simp [collectOracle, PlaylistOracle, current_song_playlist, collectNexts,
                  next_song_playlist] at h
            rw [h.2.symm] at *
            rw [nextIter_playlist_exhausted [] 1 (by simp) k]
            simp [Except.map]
  | cons a l =>
      have h0 : 0 < (a :: l).length := by simp
      have hcoll := collectNexts_playlist (a :: l) 0 fuel h0 (by omega)
      constructor
      · simp [collectOracle, PlaylistOracle, current_song_playlist, hcoll, Except.map]
      · intro items o2 h k
        simp [collectOracle, PlaylistOracle, current_song_playlist, hcoll] at h
        obtain ⟨h1, h2⟩ := h
        subst h2
        rw [nextIter_playlist_exhausted (a :: l) (l.length + 1) (by simp) k]
        simp [Except.map]

theorem claim_C5_witness :
    (collectOracle 2 (PlaylistOracle (some ["a", "b"]))).map Prod.fst = .ok ["a", "b"] ∧
    (∀ items o2, collectOracle 2 (PlaylistOracle (some ["a", "b"])) = .ok (items, o2) →
      ∀ k, (nextIter k o2).map Prod.fst = .ok none) :=
  claim_C5 ["a", "b"] 2 (by decide)

/-- Once a finite `RepeatingOracle` has no repetitions left and its pointer
has run past the end, every further `next_song()` returns `None`. -/
theorem nextIter_repeating_exhausted (seq : List String) (t : Int) (ht : t ≤ 0)
    (p : Nat) (hp : seq.length ≤ p) (k : Nat) :
    nextIter k (.repeating (some seq) (some t) p) =
      .ok (none, .repeating (some seq) (some t) (p + k + 1)) := by
  induction k generalizing p with
  | zero =>
      have hc : ¬(p + 1 ≥ seq.length ∧ t > 0) := by
        rintro ⟨_, h2⟩; omega
      have h1 : p + 1 ≥ seq.length := by omega
      rw [nextIter, next_song_repeating_finite, if_neg hc]
      simp [h1]
  | succ k ih =>
      have hc : ¬(p + 1 ≥ seq.length ∧ t > 0) := by
        rintro ⟨_, h2⟩; omega
      have h1 : p + 1 ≥ seq.length := by omega
      rw [nextIter, next_song_repeating_finite, if_neg hc]
      simp only [h1, if_pos]
      rw [ih (p + 1) (by omega)]
      have h2 : p + 1 + k + 1 = p + (k + 1) + 1 := by omega
      rw [h2]

/-- Collecting the `next_song()` values of a finite `RepeatingOracle` from an
in-bounds pointer with `m` repetitions left yields the remaining suffix of
the current pass followed by `m` full passes, and ends with no repetitions
left and the pointer parked at the length of the playlist. -/
theorem collectNexts_repeating (seq : List String) (m p fuel : Nat)
    (hp : p < seq.length)
    (hf : (seq.length - (p + 1)) + m * seq.length + 1 ≤ fuel) :
    collectNexts fuel (.repeating (some seq) (some (m : Int)) p) =
      .ok (seq.drop (p + 1) ++ (List.replicate m seq).flatten,
           .repeating (some seq) (some 0) seq.length) := by
  induction fuel generalizing m p with
  | zero => omega
  | succ fuel ih =>
      rw [collectNexts, next_song_repeating_finite]
      by_cases hend : p + 1 ≥ seq.length
      · have hp1 : p + 1 = seq.length := by omega
        cases m with
        | zero =>
            have hc : ¬(p + 1 ≥ seq.length ∧ ((0 : Nat) : Int) > 0) := by
              rintro ⟨_, h2⟩; omega
            rw [if_neg hc]
            simp [hend, hp1, List.drop_length]
        | succ m0 =>
            have hc : p + 1 ≥ seq.length ∧ ((m0 + 1 : Nat) : Int) > 0 := by
              constructor
              · exact hend
              · omega
            rw [if_pos hc, if_neg (by omega : ¬seq.length = 0)]
            have hmod : (p + 1) % seq.length = 0 := by
              rw [hp1]; exact Nat.mod_self _
            have hnot : ¬((p + 1) % seq.length ≥ seq.length) := by omega
            have hcast : ((m0 + 1 : Nat) : Int) - 1 = ((m0 : Nat) : Int) := by
              push_cast; ring
            rw [hmod] at hnot ⊢
            simp only [hnot, if_neg, if_false, hcast,
                       List.getElem?_eq_getElem (show 0 < seq.length by omega)]
            have hexp : (m0 + 1) * seq.length = m0 * seq.length + seq.length := by ring
            rw [ih m0 0 (by omega) (by omega)]
            rcases seq with _ | ⟨a, l⟩
            · simp at hp
            · simp only at hp1
              simp [List.replicate_succ, show p + 1 = l.length + 1 from hp1,
                    List.drop_length]
      · have hlt : p + 1 < seq.length := by omega
        have hc : ¬(p + 1 ≥ seq.length ∧ ((m : Nat) : Int) > 0) := by
          rintro ⟨h1, _⟩; omega
        rw [if_neg hc]
        simp only [hend, if_neg, if_false, List.getElem?_eq_getElem hlt]
        rw [ih m (p + 1) hlt (by omega)]
        rw [List.drop_eq_getElem_cons hlt]
        rfl

/-- C6: for a non-empty finite sequence and a finite repetition count
`n ≥ 1`, collecting from `Repeating(seq, n)` (one `current()`, then
`advance()` until nothing) yields `seq` repeated exactly `n` times and no
more, and afterwards every `advance()` returns nothing forever. -/
theorem claim_C6 (seq : List String) (hne : seq ≠ []) (n : Nat) (hn : 1 ≤ n)
    (fuel : Nat) (hf : n * seq.length ≤ fuel) :
    (collectOracle fuel (RepeatingOracle (some seq) (some (n : Int)))).map Prod.fst =
      .ok (List.replicate n seq).flatten ∧
    (∀ items o2,
        collectOracle fuel (RepeatingOracle (some seq) (some (n : Int))) = .ok (items, o2) →
        ∀ k, (nextIter k o2).map Prod.fst = .ok none) := by
  have hlen : 0 < seq.length := List.length_pos.mpr hne
  have hcast : ((n : Nat) : Int) - 1 = ((n - 1 : Nat) : Int) := by
    push_cast [hn]; ring
  have hcur : (if seq.length = 0 ∨ 0 ≥ seq.length then none else seq[0]?) = some seq[0] := by
    have h9 : ¬(seq.length = 0 ∨ 0 ≥ seq.length) := by omega
    rw [if_neg h9, List.getElem?_eq_getElem hlen]
  have hcoll := collectNexts_repeating seq (n - 1) 0 fuel hlen
    (by
      have : (n - 1) * seq.length + seq.length = n * seq.length := by
        have h1 : n - 1 + 1 = n := by omega
        calc (n - 1) * seq.length + seq.length = (n - 1 + 1) * seq.length := by ring
        _ = n * seq.length := by rw [h1]
      omega)
  constructor
  · simp only [collectOracle, RepeatingOracle, Option.map, current_song_repeating,
               hcur, hcast, hcoll]
    simp only [Except.map]
    have h1 : (List.replicate n seq).flatten = seq ++ (List.replicate (n - 1) seq).flatten := by
      conv_lhs => rw [show n = (n - 1) + 1 by omega]
      simp [List.replicate_succ]
    rw [h1]
    rcases seq with _ | ⟨a, l⟩
    · exact absurd rfl hne
    · simp
  · intro items o2 h k
    simp only [collectOracle, RepeatingOracle, Option.map, current_song_repeating,
               hcur, hcast, hcoll] at h
    obtain ⟨h1, h2⟩ := by exact Prod.mk.injEq .. ▸ (Except.ok.inj h)
    subst h2
    rw [nextIter_repeating_exhausted seq 0 (by omega) seq.length (Nat.le_refl _) k]
    simp [Except.map]

theorem claim_C6_witness :
    (collectOracle 4 (RepeatingOracle (some ["a", "b"]) (some ((2 : Nat) : Int)))).map
        Prod.fst = .ok (List.replicate 2 ["a", "b"]).flatten ∧
    (∀ items o2,
        collectOracle 4 (RepeatingOracle (some ["a", "b"]) (some ((2 : Nat) : Int))) =
          .ok (items, o2) →
        ∀ k, (nextIter k o2).map Prod.fst = .ok none) :=
  claim_C6 ["a", "b"] (by decide) 2 (by decide) 4 (by decide)

/-! ### Media library (`media_library.py`) and `Controller.queue_repeat`
(`controller.py`) -/

/-- Python `_check_file_exists(song_uri)`: the file system is abstracted as the list
of paths for which `os.path.isfile` returns true; a miss raises
`NotFoundException`. -/
def check_file_exists (files : List String) (song_uri : String) : Except PyError Unit :=
  if song_uri ∈ files then .ok () else .error .notFound

/-- Python `media_library.Song`: alias, uri, description. -/
structure Song where
  alias_ : String
  uri : String
  description : String
  deriving DecidableEq, Repr

/-- Python `Song.__init__(alias, uri, description="")`: checks that the uri resolves
to an existing file (raising `NotFoundException`), then stores the fields. -/
def Song.init (files : List String) (alias_ uri description : String) :
    Except PyError Song :=
  match check_file_exists files uri with
  | .error e => .error e
  | .ok _ => .ok { alias_ := alias_, uri := uri, description := description }

/-- Python `Song.__eq__`: compares only `(alias, uri)`; the description is explicitly
ignored.  (On a mismatch the Python method falls through and returns `None`,
which is falsy, so as a boolean it behaves as modelled here.) -/
def Song.eq (a b : Song) : Bool :=
  a.alias_ == b.alias_ && a.uri == b.uri

/-- Python `media_library.MediaLibrary`: `song_map` and `playlists` are Python
dicts, embedded as association lists in insertion order. -/
structure MediaLibrary where
  song_map : List (String × Song)
  playlists : List (String × List String)
  deriving DecidableEq, Repr

/-- Python `MediaLibrary.get_song(song_alias)`: raises `NotFoundException` on a
missing alias; otherwise returns `Song(alias=song.alias, uri=song.uri)` — a
fresh copy whose description is the constructor default `""`. -/
def MediaLibrary.get_song (files : List String) (lib : MediaLibrary)
    (song_alias : String) : Except PyError Song :=
  match lib.song_map.lookup song_alias with
  | none => .error .notFound
  | some song => Song.init files song.alias_ song.uri ""

/-- Python `MediaLibrary.get_playlist(playlist_name)` (defensive copy). -/
def MediaLibrary.get_playlist (lib : MediaLibrary) (playlist_name : String) :
    Except PyError (List String) :=
  match lib.playlists.lookup playlist_name with
  | none => .error .notFound
  | some pl => .ok pl

/-- Python `MediaLibrary.get(name)`: prefers playlists, else a single song; returns
the list of uris. -/
def MediaLibrary.get (files : List String) (lib : MediaLibrary) (name : String) :
    Except PyError (List String) :=
  if (lib.playlists.lookup name).isSome then
    match lib.get_playlist name with
    | .error e => .error e
    | .ok songs =>
        songs.mapM (fun song => (MediaLibrary.get_song files lib song).map (fun s => s.uri))
  else
    (MediaLibrary.get_song files lib name).map (fun s => [s.uri])

/-- The part of `controller.Controller` that `queue`/`queue_repeat` touch:
the media library and the `ChainOracle` at `self.queueing_oracle`. -/
structure Controller where
  media_library : MediaLibrary
  queueing_oracle : Oracle

/-- Python `Controller.queue(alias)`: `self.queueing_oracle.add(PlaylistOracle(songs))`. -/
def Controller.queue (files : List String) (c : Controller) (alias_ : String) :
    Except PyError Controller :=
  match MediaLibrary.get files c.media_library alias_ with
  | .error e => .error e
  | .ok songs =>
      .ok { c with queueing_oracle := chainAdd c.queueing_oracle
                      (some (PlaylistOracle (some songs))) }

/-- Python `Controller.queue_repeat(alias, times)`: after the media-library lookup
the code runs `self.queueing_oracle.append(oracles.RepeatingOracle(songs,
times))`.  `ChainOracle` defines only `add` and `clear` (besides the oracle
interface); it has no `append` attribute, so the attribute access raises
`AttributeError`. -/
def Controller.queue_repeat (files : List String) (c : Controller) (alias_ : String)
    (times : Option Int) : Except PyError Controller :=
  match MediaLibrary.get files c.media_library alias_ with
  | .error e => .error e
  | .ok _songs => .error .attributeError

/-- C2: the spec says `queue_repeat(name, times)` appends
`Repeating(resolve(name), times)` to the current Chain and does not fail.
The code instead calls the nonexistent method `ChainOracle.append`
(`ChainOracle` only has `add`), so whenever the library resolves the name,
`queue_repeat` raises `AttributeError` and the chain is never extended. -/
theorem claim_C2 (files : List String) (c : Controller) (name : String)
    (times : Option Int) (songs : List String)
    (h : MediaLibrary.get files c.media_library name = .ok songs) :
    Controller.queue_repeat files c name times = .error .attributeError := by
  simp [Controller.queue_repeat, h]

theorem claim_C2_witness :
    Controller.queue_repeat ["u.mp3"]
        { media_library :=
            { song_map := [("a", { alias_ := "a", uri := "u.mp3", description := "" })],
              playlists := [] },
          queueing_oracle := ChainOracle }
        "a" none = .error .attributeError :=
  claim_C2 ["u.mp3"]
    { media_library :=
        { song_map := [("a", { alias_ := "a", uri := "u.mp3", description := "" })],
          playlists := [] },
      queueing_oracle := ChainOracle }
    "a" none ["u.mp3"] (by rfl)

/-- C10: for a library in which alias `a` is stored, `get_song(a)` returns a
newly constructed `Song` with the stored alias and uri but with description
`""` regardless of the stored description; the copy still compares equal to
the stored song because `Song.__eq__` compares only `(alias, uri)`. -/
theorem claim_C10 (files : List String) (lib : MediaLibrary) (a : String) (s : Song)
    (hs : lib.song_map.lookup a = some s) (hfile : s.uri ∈ files) :
    MediaLibrary.get_song files lib a =
      .ok { alias_ := s.alias_, uri := s.uri, description := "" } ∧
    Song.eq { alias_ := s.alias_, uri := s.uri, description := "" } s = true ∧
    (∀ x y : Song, x.alias_ = y.alias_ → x.uri = y.uri → Song.eq x y = true) := by
  refine ⟨?_, ?_, ?_⟩
  · simp [MediaLibrary.get_song, hs, Song.init, check_file_exists, hfile]
  · simp [Song.eq]
  · intro x y h1 h2
    simp [Song.eq, h1, h2]

theorem claim_C10_witness :
    MediaLibrary.get_song ["u.mp3"]
        { song_map := [("a", { alias_ := "a", uri := "u.mp3", description := "a ballad" })],
          playlists := [] } "a" =
      .ok { alias_ := "a", uri := "u.mp3", description := "" } ∧
    Song.eq { alias_ := "a", uri := "u.mp3", description := "" }
        { alias_ := "a", uri := "u.mp3", description := "a ballad" } = true ∧
    (∀ x y : Song, x.alias_ = y.alias_ → x.uri = y.uri → Song.eq x y = true) :=
  claim_C10 ["u.mp3"]
    { song_map := [("a", { alias_ := "a", uri := "u.mp3", description := "a ballad" })],
      playlists := [] }
    "a" { alias_ := "a", uri := "u.mp3", description := "a ballad" }
    (by rfl) (by decide)

/-! ### Message schema (`commandserver/server_types/v1_command_types.py`) -/

namespace V1

/-- Python `ErrorType`: the four response states. -/
inductive ErrorType where
  | USER_ERROR : ErrorType
  | CLIENT_ERROR : ErrorType
  | FAILURE : ErrorType
  | INTERNAL_ERROR : ErrorType
  deriving DecidableEq, Repr

/-- Python `ErrorDataEnv`: whether debug data has been scrubbed. -/
inductive ErrorDataEnv where
  | PRODUCTION : ErrorDataEnv
  | DEBUG : ErrorDataEnv
  deriving DecidableEq, Repr

/-- Python `v1_command_types.Song` (the wire object, distinct from the media-library
`Song`): all fields optional; `metadata` is a string-to-string map. -/
structure Song where
  name : Option String
  description : Option String
  metadata : Option (List (String × String))
  local_path : Option String
  deriving DecidableEq, Repr

/-- Python `v1_command_types.Playlist` (the wire object). -/
structure Playlist where
  name : Option String
  description : Option String
  metadata : Option (List (String × String))
  songs : Option (List String)
  deriving DecidableEq, Repr

/-- Python `ErrorEvent`: the error payload.  `event_name` is pinned to `"ERROR"`;
`error_message` defaults to `""`, `error_env` to DEBUG, the remaining
optionals to unset. -/
structure ErrorEvent where
  event_name : String
  error_message : Option String
  error_type : Option ErrorType
  error_data : Option String
  error_env : Option ErrorDataEnv
  originating_command : Option String
  deriving DecidableEq, Repr

/-- Python `ErrorEvent.create(**data)` as invoked with `error_message`, `error_type`
and `error_env` keywords: `event_name` is set to the class EVENT_NAME
`"ERROR"`, and the fields not passed (`error_data`,
`originating_command`) take their pydantic default, unset. -/
def ErrorEvent.create (error_message : Option String) (error_type : Option ErrorType)
    (error_env : Option ErrorDataEnv) : ErrorEvent :=
  { event_name := "ERROR"
    error_message := error_message
    error_type := error_type
    error_data := none
    error_env := error_env
    originating_command := none }

/-- Python `ErrorEvent.for_prod()`: the production redaction. -/
def ErrorEvent.for_prod (e : ErrorEvent) : ErrorEvent :=
  let error_message :=
    if e.error_type = some .INTERNAL_ERROR then some "Unxpected error encountered."
    else e.error_message
  ErrorEvent.create error_message e.error_type (some .PRODUCTION)

/-- Python `Types.EVENT_TYPES`: the closed union of event payloads. -/
inductive EVENT_TYPES where
  | error (e : ErrorEvent) : EVENT_TYPES
  | playState (new_play_state : Option Bool) : EVENT_TYPES
  | songPlaying (current_song : Option Song) : EVENT_TYPES
  | listSongs (songs : Option (List Song)) : EVENT_TYPES
  | listPlaylists (playlists : Option (List Playlist)) : EVENT_TYPES
  deriving DecidableEq, Repr

/-- Python `Types.COMMAND_TYPES`: the closed union of command payloads. -/
inductive COMMAND_TYPES where
  | togglePlay (play_state : Option Bool) : COMMAND_TYPES
  | nextSong : COMMAND_TYPES
  | listSongs : COMMAND_TYPES
  | listPlaylists : COMMAND_TYPES
  deriving DecidableEq, Repr

/-- Python `Message`: the wire envelope, both fields optional. -/
structure Message where
  event : Option EVENT_TYPES
  command : Option COMMAND_TYPES
  deriving DecidableEq, Repr

/-- The two `ValueError`s of `Message.ensure_one_of_command_or_event_set`. -/
inductive ValidationError where
  | bothSet : ValidationError
  | neitherSet : ValidationError
  deriving DecidableEq, Repr

/-- Python `Message.ensure_one_of_command_or_event_set`: the pydantic validator run
on the `command` field with `values` holding the already-validated `event`.
A model instance is always truthy, so the Python truthiness tests amount to
`isSome`. -/
def ensure_one_of_command_or_event_set (event : Option EVENT_TYPES)
    (command : Option COMMAND_TYPES) :
    Except ValidationError (Option COMMAND_TYPES) :=
  if event.isSome && command.isSome then .error .bothSet
  else if !event.isSome && !command.isSome then .error .neitherSet
  else .ok command

/-- Constructing a `Message` runs the validator. -/
def validateMessage (event : Option EVENT_TYPES) (command : Option COMMAND_TYPES) :
    Except ValidationError Message :=
  match ensure_one_of_command_or_event_set event command with
  | .error e => .error e
  | .ok c => .ok { event := event, command := c }

end V1

/-- C7: for every `ErrorEvent`, the production redaction `for_prod` yields an
event with `error_env = PRODUCTION` and `error_data` unset, whose
`error_message` is replaced by the generic unexpected-error string exactly
when `error_type` is INTERNAL_ERROR and kept otherwise; the error type
itself is preserved. -/
theorem claim_C7 (e : V1.ErrorEvent) :
    (e.for_prod).error_env = some .PRODUCTION ∧
    (e.for_prod).error_data = none ∧
    (e.for_prod).error_message =
      (if e.error_type = some .INTERNAL_ERROR then some "Unxpected error encountered."
       else e.error_message) ∧
    (e.for_prod).error_type = e.error_type := by
  refine ⟨rfl, rfl, ?_, rfl⟩
  simp [V1.ErrorEvent.for_prod, V1.ErrorEvent.create]

/-- C8: validating a `Message` fails (with the corresponding `ValueError`)
whenever both `command` and `event` are populated and whenever neither is;
every message that passes validation has exactly one of the two set. -/
theorem claim_C8 (event : Option V1.EVENT_TYPES) (command : Option V1.COMMAND_TYPES) :
    (event.isSome → command.isSome →
      V1.validateMessage event command = .error .bothSet) ∧
    (event = none → command = none →
      V1.validateMessage event command = .error .neitherSet) ∧
    (∀ m, V1.validateMessage event command = .ok m →
      ((m.event.isSome ∧ ¬m.command.isSome) ∨ (¬m.event.isSome ∧ m.command.isSome))) := by
  cases event <;> cases command <;>
    simp [V1.validateMessage, V1.ensure_one_of_command_or_event_set]

theorem claim_C8_witness :
    V1.validateMessage (some (.playState (some true))) (some (.togglePlay none)) =
      .error .bothSet :=
  (claim_C8 (some (.playState (some true))) (some (.togglePlay none))).1 rfl rfl

/-! ### Transport muxer (`commandserver/websocket_muxer.py`) -/

/-- The close codes of the `server_codes` module.  That module is not under
`src/` (only its callers and tests are), so the codes are modelled
symbolically rather than numerically. -/
inductive CloseCode where
  | NORMAL : CloseCode
  | UNSUPPORTED_URI : CloseCode
  | BAD_CLIENT : CloseCode
  deriving DecidableEq, Repr

/-- The marker appended to a close reason that had to be truncated. -/
def truncMarker : String := " <trunc>"

/-- The byte budget left for the kept words: 125 minus the marker size. -/
def truncBudget : Nat := 125 - truncMarker.utf8ByteSize

/-- Modelled from the spec: the word-by-word accumulation underlying the
close-reason truncation (the code implementing it is not under `src/`).
Keeps whole words (separated by single spaces) while they fit in the byte
budget, counting one byte for each separating space. -/
def truncWords : List String → Nat → String
  | [], _ => ""
  | w :: ws, budget =>
      if w.utf8ByteSize ≤ budget then
        let rest := truncWords ws (budget - w.utf8ByteSize - 1)
        if rest = "" then w else w ++ " " ++ rest
      else ""

/-- Modelled from the spec: `ClientError(reason)` closes with a reason
"truncated on word boundaries to ≤ 125 bytes, appending ` <trunc>` when
truncated" — the truncation helper itself is code of this repository that is
not under `src/`; `WebsocketMuxer.handle_session` only passes `str(e)` to
the transport close. -/
def truncate_reason (reason : String) : String :=
  if reason.utf8ByteSize ≤ 125 then reason
  else truncWords (reason.splitOn " ") truncBudget ++ truncMarker

/-- One inbound websocket frame. -/
inductive Frame where
  | text (s : String) : Frame
  | binary : Frame
  deriving DecidableEq, Repr

/-- The outcome of a handler `accept` call on one frame: a normal return, or
one of the two control exceptions (`CloseConnectionException`,
`ClientError(reason)`). -/
inductive HandlerResult where
  | ok : HandlerResult
  | closeConnection : HandlerResult
  | clientError (reason : String) : HandlerResult
  deriving DecidableEq, Repr

/-- What `WebsocketMuxer.handle_session` does with the connection after one
frame. -/
inductive SessionOutcome where
  | continues : SessionOutcome
  | closedNormal : SessionOutcome
  | closed (code : CloseCode) (reason : String) : SessionOutcome
  deriving DecidableEq, Repr

/-- The per-frame loop body of `WebsocketMuxer.handle_session`: a binary
frame raises `ClientError("this server does not accept binary frames")`; a
`CloseConnectionException` closes normally (`ws.close()`); a `ClientError e`
closes with `server_codes.BAD_CLIENT` and reason `str(e)`, which the
transport-side close-reason handling truncates (`truncate_reason`). -/
def handle_frame (accept : String → HandlerResult) : Frame → SessionOutcome
  | .binary =>
      .closed .BAD_CLIENT (truncate_reason "this server does not accept binary frames")
  | .text s =>
      match accept s with
      | .ok => .continues
      | .closeConnection => .closedNormal
      | .clientError reason => .closed .BAD_CLIENT (truncate_reason reason)

theorem utf8ByteSize_append (a b : String) :
    (a ++ b).utf8ByteSize = a.utf8ByteSize + b.utf8ByteSize := by
  simp [String.utf8ByteSize, String.append]

theorem utf8ByteSize_eq_zero {s : String} (h : s.utf8ByteSize = 0) : s = "" := by
  rcases s with ⟨data⟩
  cases data with
  | nil => rfl
  | cons c cs =>
      exfalso
      have hc := Char.utf8Size_pos c
      have : 0 < (String.mk (c :: cs)).utf8ByteSize := by
        simp [String.utf8ByteSize]
        omega
      omega

/-- The kept words always fit in the byte budget. -/
theorem truncWords_size_le (ws : List String) (budget : Nat) :
    (truncWords ws budget).utf8ByteSize ≤ budget := by
  induction ws generalizing budget with
  | nil =>
      rw [truncWords]
      simp [String.utf8ByteSize]
  | cons w ws ih =>
      rw [truncWords]
      split
      · rename_i hw
        dsimp only
        split
        · rename_i hrest
          exact hw
        · rename_i hrest
          have h1 := ih (budget - w.utf8ByteSize - 1)
          have h2 : (truncWords ws (budget - w.utf8ByteSize - 1)).utf8ByteSize ≠ 0 := by
            intro h0
            exact hrest (utf8ByteSize_eq_zero h0)
          rw [utf8ByteSize_append, utf8ByteSize_append]
          have h3 : (" " : String).utf8ByteSize = 1 := by decide
          rw [h3]
          omega
      · simp [String.utf8ByteSize]

/-- C9: when a registered handler raises `ClientError(reason)` on a text
frame, the muxer closes the connection with code `BAD_CLIENT` and the close
reason is `reason` put through the word-boundary truncation: it is at most
125 bytes, it equals `reason` unchanged when `reason` fits in 125 bytes, and
when `reason` does not fit the ` <trunc>` marker is appended (the marker is
a suffix of the close reason). -/
theorem claim_C9 (accept : String → HandlerResult) (s reason : String)
    (h : accept s = .clientError reason) :
    handle_frame accept (.text s) = .closed .BAD_CLIENT (truncate_reason reason) ∧
    (truncate_reason reason).utf8ByteSize ≤ 125 ∧
    (reason.utf8ByteSize ≤ 125 → truncate_reason reason = reason) ∧
    (125 < reason.utf8ByteSize → truncMarker.data <:+ (truncate_reason reason).data) := by
  refine ⟨?_, ?_, ?_, ?_⟩
  · simp [handle_frame, h]
  · rw [truncate_reason]
    split
    · rename_i h1
      exact h1
    · rw [utf8ByteSize_append]
      have h1 := truncWords_size_le (reason.splitOn " ") truncBudget
      have h2 : truncMarker.utf8ByteSize = 8 := by decide
      have h3 : truncBudget = 117 := by decide
      omega
  · intro h1
    rw [truncate_reason, if_pos h1]
  · intro h1
    rw [truncate_reason, if_neg (by omega)]
    rw [String.data_append]
    exact List.suffix_append _ _

theorem claim_C9_witness :
    handle_frame (fun _ => .clientError "bad frame") (.text "m") =
      .closed .BAD_CLIENT (truncate_reason "bad frame") ∧
    (truncate_reason "bad frame").utf8ByteSize ≤ 125 ∧
    ((String.utf8ByteSize "bad frame") ≤ 125 → truncate_reason "bad frame" = "bad frame") ∧
    (125 < String.utf8ByteSize "bad frame" →
      truncMarker.data <:+ (truncate_reason "bad frame").data) :=
  claim_C9 (fun _ => .clientError "bad frame") "m" "bad frame" rfl

end NoiseBox
